import Mathlib

/-
Verification development for the Adaptive Layout Engine of the
ai-resume-enhancer repository.

The Python source is shallowly embedded in Lean 4:
  * Python floats are modelled as exact rationals (the ideal real
    arithmetic the code approximates);
  * Python exceptions are modelled with Option / Except (a value of
    Option.none marks a raised exception);
  * Python dicts (insertion ordered, unique string keys) are modelled as
    association lists together with update operations that keep the
    position of an existing key, exactly as CPython dicts do;
  * third-party rendering backends (reportlab) are modelled only at the
    level the code observes: a canvas is a list of pages of draw
    operations, and serialisation always emits the PDF header bytes.
Each definition names, in its doc comment, the source function it embeds.
-/

/-- Embeds Python str.splitlines on a character list: splits at LF, CR and
CRLF boundaries; a trailing terminator does not produce a final empty
line (as in Python), but interior empty lines are kept. -/
def splitlinesAux : List Char → List Char → List (List Char)
  | [], acc => if acc.isEmpty then [] else [acc.reverse]
  | '\r' :: '\n' :: rest, acc => acc.reverse :: splitlinesAux rest []
  | '\r' :: rest, acc => acc.reverse :: splitlinesAux rest []
  | '\n' :: rest, acc => acc.reverse :: splitlinesAux rest []
  | c :: rest, acc => splitlinesAux rest (c :: acc)

/-- Embeds Python str.splitlines on strings. -/
def splitlines (s : String) : List String :=
  (splitlinesAux s.toList []).map (fun cs => String.mk cs)

/-- Embeds the Python substring test (needle in hay). -/
def strContains (hay needle : String) : Bool :=
  hay.toList.tails.any (fun t => needle.toList.isPrefixOf t)

/-- Whitespace characters recognised by Python str.strip (ASCII range). -/
def pyIsSpace (c : Char) : Bool :=
  c = ' ' || c = '\t' || c = '\n' || c = '\r' || c = '\x0b' || c = '\x0c'

/-- Embeds Python str.strip() (ASCII whitespace; the source only feeds it
ASCII resume text). -/
def pyStrip (s : String) : String :=
  ⟨((s.toList.dropWhile pyIsSpace).reverse.dropWhile pyIsSpace).reverse⟩

/-- Lower-cases one ASCII character, as Python str.lower does on ASCII. -/
def pyLowerChar (c : Char) : Char :=
  if 'A' ≤ c ∧ c ≤ 'Z' then Char.ofNat (c.toNat + 32) else c

/-- Embeds Python str.lower() on ASCII strings. -/
def pyLower (s : String) : String :=
  ⟨s.toList.map pyLowerChar⟩

/-- Embeds the module-level adaptive-layout fallback ladder of
app/streamlit_app.py (the try/except/try/except block): tier 1 is tried
first; if it raises, tier 2 is tried; if tier 2 raises, tier 3 runs with
no handler around it, so only a tier-3 exception reaches the caller. -/
def fallbackChain {ε α : Type} (tier1 tier2 tier3 : Except ε α) : Except ε α :=
  match tier1 with
  | Except.ok v => Except.ok v
  | Except.error _ =>
    match tier2 with
    | Except.ok v => Except.ok v
    | Except.error _ => tier3

/-- One drawString operation recorded on the modelled reportlab canvas. -/
structure DrawOp where
  x : ℚ
  y : ℚ
  s : String
deriving DecidableEq

/-- Page size letter = (612, 792) points, from reportlab.lib.pagesizes. -/
def letterWidth : ℚ := 612

/-- Height of the letter page size. -/
def letterHeight : ℚ := 792

/-- State-passing embedding of the drawing loop of text_to_pdf_bytes
(app/streamlit_app.py): completed pages, current page, cursor y. -/
def t2pStep (st : List (List DrawOp) × List DrawOp × ℚ) (line : String) :
    List (List DrawOp) × List DrawOp × ℚ :=
  let (pages, cur, y) := st
  let (pages, cur, y) :=
    if y < 60 then (pages ++ [cur], ([] : List DrawOp), letterHeight - 50)
    else (pages, cur, y)
  (pages, cur ++ [⟨50, y, ⟨line.toList.take 110⟩⟩], y - 15)

/-- Embeds text_to_pdf_bytes up to canvas.save: the list of pages of draw
operations the canvas holds when save is called (save flushes the page
in progress; reportlab emits it even when it is empty). -/
def text_to_pdf_pages (text : String) : List (List DrawOp) :=
  let st := (splitlines text).foldl t2pStep ([], [], letterHeight - 50)
  st.1 ++ [st.2.1]

/-- Models reportlab serialisation of one draw operation. -/
def drawOpBytes (op : DrawOp) : List Char := op.s.toList

/-- Models reportlab Canvas.save serialisation abstractly: the output
always begins with the PDF header bytes, followed by the page contents.
Only the presence of the header is relied upon. -/
def pdfSerialize (pages : List (List DrawOp)) : List Char :=
  ("%PDF-1.4".toList) ++ (pages.map (fun pg => (pg.map drawOpBytes).flatten)).flatten

/-- Embeds text_to_pdf_bytes (app/streamlit_app.py): the byte stream of
the fallback PDF, as a character list. -/
def text_to_pdf_bytes (text : String) : List Char :=
  pdfSerialize (text_to_pdf_pages text)

/-- One section entry of the JSON layout template consumed by
map_text_to_template: a dict with a title key. -/
structure TSec where
  title : String
deriving DecidableEq

/-- The JSON layout template as map_text_to_template reads it:
template_name and the section list. -/
structure Template where
  template_name : String
  sections : List TSec
deriving DecidableEq

/-- Insertion-ordered string-keyed dict holding the mapped sections. -/
abbrev Sections := List (String × List String)

/-- Embeds the Python dict assignment sections[k] = v: an existing key is
updated in place (its position is kept); a new key is appended. -/
def setKey (m : Sections) (k : String) (v : List String) : Sections :=
  if m.any (fun p => p.1 = k) then
    m.map (fun p => if p.1 = k then (k, v) else p)
  else m ++ [(k, v)]

/-- Embeds sections.setdefault(k, []).append(x). -/
def appendKey (m : Sections) (k : String) (x : String) : Sections :=
  if m.any (fun p => p.1 = k) then
    m.map (fun p => if p.1 = k then (p.1, p.2 ++ [x]) else p)
  else m ++ [(k, [x])]

/-- Embeds the heading test of map_text_to_template
(src/layout_engine/template_mapper.py line 29): some template section
title, lower-cased, occurs as a substring of the lower-cased line. -/
def matchesTemplate (line : String) (tmpl : Template) : Bool :=
  tmpl.sections.any (fun sec => strContains (pyLower line) (pyLower sec.title))

/-- Embeds one iteration of the loop of map_text_to_template: state is
(current section name, sections dict). -/
def mapStep (tmpl : Template) (st : String × Sections) (rawLine : String) :
    String × Sections :=
  let line := pyStrip rawLine
  if line = "" then st
  else if matchesTemplate line tmpl then (line, setKey st.2 line [])
  else (st.1, appendKey st.2 st.1 line)

/-- Result value of map_text_to_template. -/
structure MappedDoc where
  template : String
  sections : Sections
deriving DecidableEq

/-- Embeds map_text_to_template (src/layout_engine/template_mapper.py):
current section starts as Body (already present in the dict), each
non-empty stripped line either opens or re-opens a section named after
itself or is appended to the current section. -/
def map_text_to_template (enhanced_text : String) (tmpl : Template) : MappedDoc :=
  let st := (splitlines enhanced_text).foldl (mapStep tmpl) ("Body", [("Body", [])])
  ⟨tmpl.template_name, st.2⟩

/-- A text span record as produced by extract_with_fitz
(src/layout_engine/layout_parser.py): text, font, size and bounding box
(x0, y0, x1, y1). -/
structure Blk where
  text : String
  font : Option String
  size : Option ℚ
  bbox : ℚ × ℚ × ℚ × ℚ
deriving DecidableEq

/-- Embeds the helper y_center of layout_parser.py: vertical center of a
bounding box. -/
def y_center (bbox : ℚ × ℚ × ℚ × ℚ) : ℚ :=
  (bbox.2.1 + bbox.2.2.2) / 2

/-- Round-half-to-even on rationals, the ideal of Python round(x). -/
def rhe (x : ℚ) : ℤ :=
  let f := ⌊x⌋
  if x - f < 1 / 2 then f
  else if x - f > 1 / 2 then f + 1
  else if f % 2 = 0 then f else f + 1

/-- Embeds round(x, 2) of Python, used by the helper round_bbox. -/
def round2 (x : ℚ) : ℚ := (rhe (x * 100) : ℚ) / 100

/-- Embeds the helper round_bbox of layout_parser.py (precision 2). -/
def round_bbox (b : ℚ × ℚ × ℚ × ℚ) : ℚ × ℚ × ℚ × ℚ :=
  (round2 b.1, round2 b.2.1, round2 b.2.2.1, round2 b.2.2.2)

/-- Zone accumulator as initialised by group_blocks_into_zones: index,
band bounds, and the member spans collected so far. -/
structure ZoneAcc where
  zone_index : ℕ
  y0 : ℚ
  y1 : ℚ
  items : List Blk
deriving DecidableEq

/-- Output zone of group_blocks_into_zones: index, aggregated bounding
box and member spans. -/
structure ZoneOut where
  zone_index : ℕ
  bbox : ℚ × ℚ × ℚ × ℚ
  items : List Blk
deriving DecidableEq

/-- Python list indexing semantics: an index in [0, len) is used as is, an
index in [-len, 0) counts from the end, anything else raises IndexError
(modelled as Option.none). -/
def pyNormIdx (len : ℕ) (i : ℤ) : Option ℕ :=
  if 0 ≤ i ∧ i < (len : ℤ) then some i.toNat
  else if -(len : ℤ) ≤ i ∧ i < 0 then some ((len : ℤ) + i).toNat
  else Option.none

/-- Replaces the element at a (already normalised) position. -/
def modifyAt : List α → ℕ → (α → α) → List α
  | [], _, _ => []
  | x :: xs, 0, f => f x :: xs
  | x :: xs, n + 1, f => x :: modifyAt xs n f

/-- Embeds the index expression min(int(cy // band_height), num_zones - 1)
of group_blocks_into_zones (layout_parser.py line 146). -/
def zone_idx (cy band : ℚ) (num_zones : ℕ) : ℤ :=
  min ⌊cy / band⌋ ((num_zones : ℤ) - 1)

/-- The effective position in the zones list that the statement
zones[idx].items.append(b) writes to, under Python indexing. -/
def assigned_zone_pos (cy band : ℚ) (num_zones : ℕ) : Option ℕ :=
  pyNormIdx num_zones (zone_idx cy band num_zones)

/-- Embeds one iteration of the assignment loop of
group_blocks_into_zones; Option.none marks a raised exception
(ZeroDivisionError when the band height is zero, IndexError when the
index is out of range on both ends). -/
def assign_block (band : ℚ) (num_zones : ℕ) (zones : List ZoneAcc) (b : Blk) :
    Option (List ZoneAcc) :=
  if band = 0 then Option.none
  else
    match pyNormIdx zones.length (zone_idx (y_center b.bbox) band num_zones) with
    | some j => some (modifyAt zones j (fun z => { z with items := z.items ++ [b] }))
    | Option.none => Option.none

/-- Embeds the zone initialisation loop of group_blocks_into_zones. -/
def init_zones (band : ℚ) (num_zones : ℕ) : List ZoneAcc :=
  (List.range num_zones).map (fun i => ⟨i, (i : ℚ) * band, ((i : ℚ) + 1) * band, []⟩)

/-- Minimum of a list of rationals (Python min; the call sites guarantee
a non-empty list). -/
def listMin : List ℚ → ℚ
  | [] => 0
  | x :: xs => xs.foldl min x

/-- Maximum of a list of rationals (Python max). -/
def listMax : List ℚ → ℚ
  | [] => 0
  | x :: xs => xs.foldl max x

/-- Embeds the summary loop of group_blocks_into_zones: zones with no
items are skipped, the rest get the rounded union bounding box of their
items. -/
def summarize_zones : List ZoneAcc → List ZoneOut
  | [] => []
  | z :: zs =>
    if z.items.isEmpty then summarize_zones zs
    else
      let xs := z.items.map (fun it => it.bbox.1) ++ z.items.map (fun it => it.bbox.2.2.1)
      let ys := z.items.map (fun it => it.bbox.2.1) ++ z.items.map (fun it => it.bbox.2.2.2)
      ⟨z.zone_index, round_bbox (listMin xs, listMin ys, listMax xs, listMax ys), z.items⟩ ::
        summarize_zones zs

/-- Embeds group_blocks_into_zones (src/layout_engine/layout_parser.py
lines 132-159); Option.none marks a raised exception. -/
def group_blocks_into_zones (blocks : List Blk) (page_height : ℚ) (num_zones : ℕ) :
    Option (List ZoneOut) :=
  let band := page_height / (num_zones : ℚ)
  match blocks.foldlM (assign_block band num_zones) (init_zones band num_zones) with
  | some zones => some (summarize_zones zones)
  | Option.none => Option.none

/-- Specification formula for the zone index, stated from the spec
words: floor of center over band height, clamped into [0, N-1] on both
ends. For comparison with the code's assigned_zone_pos. -/
def spec_zone_index (cy band : ℚ) (num_zones : ℕ) : ℤ :=
  min (max ⌊cy / band⌋ 0) ((num_zones : ℤ) - 1)

/-- Occurrence count of a span across the member lists of the produced
zones. -/
def zonesCount (zs : List ZoneOut) (b : Blk) : ℕ :=
  (zs.map (fun z => z.items.count b)).sum

/-- Occurrence count of a span across the accumulating zones. -/
def accCount (zs : List ZoneAcc) (b : Blk) : ℕ :=
  (zs.map (fun z => z.items.count b)).sum

/-- Python values that can populate a template dict: strings, ints,
floats (modelled as exact rationals, matching the exact repr round-trip
of Python floats through json), booleans, None, lists, tuples and
string-keyed dicts (all dict keys in templates are strings). -/
inductive PyVal where
  | str (s : String)
  | int (n : ℤ)
  | float (q : ℚ)
  | bool (b : Bool)
  | none
  | list (xs : List PyVal)
  | tuple (xs : List PyVal)
  | dict (kvs : List (String × PyVal))

/-- Abstract syntax of the JSON document json.dump writes; the textual
serialisation round-trips this structure exactly (ints as integer
literals, floats via repr, which json.load parses back to the same
value). -/
inductive JVal where
  | str (s : String)
  | int (n : ℤ)
  | float (q : ℚ)
  | bool (b : Bool)
  | null
  | arr (xs : List JVal)
  | obj (kvs : List (String × JVal))

mutual

/-- Embeds json.dump as called by save_template
(src/layout_engine/layout_parser.py line 267): lists and tuples both
serialise to JSON arrays, dicts to objects. -/
def pyDump : PyVal → JVal
  | PyVal.str s => JVal.str s
  | PyVal.int n => JVal.int n
  | PyVal.float q => JVal.float q
  | PyVal.bool b => JVal.bool b
  | PyVal.none => JVal.null
  | PyVal.list xs => JVal.arr (pyDumpList xs)
  | PyVal.tuple xs => JVal.arr (pyDumpList xs)
  | PyVal.dict kvs => JVal.obj (pyDumpKVs kvs)

/-- Serialises the elements of a list or tuple. -/
def pyDumpList : List PyVal → List JVal
  | [] => []
  | x :: xs => pyDump x :: pyDumpList xs

/-- Serialises the entries of a dict. -/
def pyDumpKVs : List (String × PyVal) → List (String × JVal)
  | [] => []
  | (k, v) :: kvs => (k, pyDump v) :: pyDumpKVs kvs

end

mutual

/-- Embeds json.load as called by load_template
(src/layout_engine/layout_parser.py line 272): JSON arrays always come
back as Python lists, never as tuples. -/
def pyLoad : JVal → PyVal
  | JVal.str s => PyVal.str s
  | JVal.int n => PyVal.int n
  | JVal.float q => PyVal.float q
  | JVal.bool b => PyVal.bool b
  | JVal.null => PyVal.none
  | JVal.arr xs => PyVal.list (pyLoadList xs)
  | JVal.obj kvs => PyVal.dict (pyLoadKVs kvs)

/-- Parses the elements of a JSON array. -/
def pyLoadList : List JVal → List PyVal
  | [] => []
  | x :: xs => pyLoad x :: pyLoadList xs

/-- Parses the entries of a JSON object. -/
def pyLoadKVs : List (String × JVal) → List (String × PyVal)
  | [] => []
  | (k, v) :: kvs => (k, pyLoad v) :: pyLoadKVs kvs

end

mutual

/-- Replaces every tuple in a Python value by the corresponding list,
recursively: the normalisation a json round-trip applies. -/
def detuple : PyVal → PyVal
  | PyVal.str s => PyVal.str s
  | PyVal.int n => PyVal.int n
  | PyVal.float q => PyVal.float q
  | PyVal.bool b => PyVal.bool b
  | PyVal.none => PyVal.none
  | PyVal.list xs => PyVal.list (detupleList xs)
  | PyVal.tuple xs => PyVal.list (detupleList xs)
  | PyVal.dict kvs => PyVal.dict (detupleKVs kvs)

/-- Normalises the elements of a list or tuple. -/
def detupleList : List PyVal → List PyVal
  | [] => []
  | x :: xs => detuple x :: detupleList xs

/-- Normalises the entries of a dict. -/
def detupleKVs : List (String × PyVal) → List (String × PyVal)
  | [] => []
  | (k, v) :: kvs => (k, detuple v) :: detupleKVs kvs

end

mutual

/-- Decides whether a Python value contains a tuple anywhere. -/
def hasTuple : PyVal → Bool
  | PyVal.str _ => false
  | PyVal.int _ => false
  | PyVal.float _ => false
  | PyVal.bool _ => false
  | PyVal.none => false
  | PyVal.list xs => hasTupleList xs
  | PyVal.tuple _ => true
  | PyVal.dict kvs => hasTupleKVs kvs

/-- Tuple search over the elements of a list or tuple. -/
def hasTupleList : List PyVal → Bool
  | [] => false
  | x :: xs => hasTuple x || hasTupleList xs

/-- Tuple search over the entries of a dict. -/
def hasTupleKVs : List (String × PyVal) → Bool
  | [] => false
  | (_, v) :: kvs => hasTuple v || hasTupleKVs kvs

end

/-- Embeds save_template (src/layout_engine/layout_parser.py line 267):
the JSON document written to disk for a template value. -/
def save_template (template : PyVal) : JVal := pyDump template

/-- Embeds load_template (src/layout_engine/layout_parser.py line 272):
the Python value reconstructed from a stored JSON document. -/
def load_template (stored : JVal) : PyVal := pyLoad stored

/-- Embeds estimate_text_height (src/layout_engine/layout_renderer.py
lines 43-48) with the external reportlab metric stringWidth of one M
glyph passed in as avgCharWidth: the number of lines is the fractional
quotient len text / charsPerLine floored below at 1, not its ceiling. -/
def estimate_text_height (textLen : ℕ) (avgCharWidth width leading : ℚ) : ℚ :=
  let charsPerLine := width / avgCharWidth
  max 1 ((textLen : ℚ) / charsPerLine) * leading

/-- Specification formula for the height estimate, stated from the spec
words: ceil of len text / charsPerLine times leading. For comparison
with the code's estimate_text_height. -/
def spec_estimate_text_height (textLen : ℕ) (avgCharWidth width leading : ℚ) : ℚ :=
  let charsPerLine := width / avgCharWidth
  (⌈(textLen : ℚ) / charsPerLine⌉ : ℚ) * leading

/-- Mutable font data of one ParagraphStyle, as the adaptive-fit loop of
render_resume sees it. -/
structure RStyle where
  fontSize : ℚ
  leading : ℚ
deriving DecidableEq

/-- Embeds the adaptive-fit block of render_resume
(src/layout_engine/layout_renderer.py lines 136-143): when the estimated
total height overflows, every style receives the font size
max(8, base_size * scale * 1.1) and the leading becomes that font size
plus 3. -/
def apply_adaptive_fit (styles : List RStyle) (base_size max_height total_est : ℚ) :
    List RStyle :=
  if total_est > max_height then
    let scale_factor := max_height / total_est
    let scaled_font := max 8 (base_size * scale_factor * (11 / 10))
    styles.map (fun _s => ⟨scaled_font, scaled_font + 3⟩)
  else styles

/-- Embeds the total_est_height expression of render_resume (line 137):
sum of the height estimates of the raw input lines, measured with the
Normal style. -/
def total_est_height (text : String) (avgCharWidth max_width leading : ℚ) : ℚ :=
  ((splitlines text).map
    (fun l => estimate_text_height l.length avgCharWidth max_width leading)).sum

/-- Specification rule for the rescaled leading, stated from the spec
words: the leading is scaled by the same factor as the font size
(scale times 1.1). For comparison with the code's leading update. -/
def spec_scaled_leading (leading scale_factor : ℚ) : ℚ :=
  leading * scale_factor * (11 / 10)

/-! Helper lemmas shared by the claim theorems. -/

/-- A template with no sections matches no line. -/
theorem matchesTemplate_nil (line name : String) :
    matchesTemplate line ⟨name, []⟩ = false := rfl

/-- Appending to the only key of a one-entry dict. -/
theorem appendKey_singleton (k : String) (acc : List String) (x : String) :
    appendKey [(k, acc)] k x = [(k, acc ++ [x])] := by
  simp [appendKey]

/-- Running the mapper loop with an empty template accumulates every
non-empty stripped line into Body. -/
theorem mapStep_fold_empty (name : String) (ls : List String) (acc : List String) :
    ls.foldl (mapStep ⟨name, []⟩) ("Body", [("Body", acc)]) =
      ("Body", [("Body", acc ++ (ls.map pyStrip).filter (fun l => l ≠ ""))]) := by
  induction ls generalizing acc with
  | nil => simp
  | cons l ls ih =>
    by_cases h : pyStrip l = ""
    · rw [List.foldl_cons,
        show mapStep ⟨name, []⟩ ("Body", [("Body", acc)]) l = ("Body", [("Body", acc)]) from
          by simp [mapStep, h],
        ih]
      simp [h]
    · rw [List.foldl_cons,
        show mapStep ⟨name, []⟩ ("Body", [("Body", acc)]) l =
            ("Body", [("Body", acc ++ [pyStrip l])]) from
          by simp [mapStep, h, matchesTemplate_nil, appendKey_singleton],
        ih]
      simp [h]

/-- Updating a key that occurs once in a dict rewrites that entry in
place and leaves every other entry unchanged. -/
theorem setKey_middle (pre post : Sections) (k : String) (v v' : List String)
    (hpre : ∀ p ∈ pre, p.1 ≠ k) (hpost : ∀ p ∈ post, p.1 ≠ k) :
    setKey (pre ++ (k, v) :: post) k v' = pre ++ (k, v') :: post := by
  unfold setKey
  rw [if_pos]
  · rw [List.map_append]
    congr 1
    · have h : ∀ p ∈ pre, (if p.1 = k then (k, v') else p) = p := by
        intro p hp
        simp [hpre p hp]
      rw [List.map_congr_left h]
      simp
    · simp only [List.map_cons, if_pos rfl]
      congr 1
      have h : ∀ p ∈ post, (if p.1 = k then (k, v') else p) = p := by
        intro p hp
        simp [hpost p hp]
      rw [List.map_congr_left h]
      simp
  · simp

/-- C1: in the three-tier fallback chain of app/streamlit_app.py, an
exception in tier 1 is caught and tier 2 is tried; an exception in
tier 2 is caught and tier 3 is tried; an error escapes the chain only
when tier 3 itself fails (and then tiers 1 and 2 failed too). -/
theorem C1_fallback_chain (t1 t2 t3 : Except ε α) :
    (∀ v, t1 = Except.ok v → fallbackChain t1 t2 t3 = Except.ok v) ∧
    (∀ e v, t1 = Except.error e → t2 = Except.ok v →
      fallbackChain t1 t2 t3 = Except.ok v) ∧
    (∀ e e', t1 = Except.error e → t2 = Except.error e' →
      fallbackChain t1 t2 t3 = t3) ∧
    (∀ e, fallbackChain t1 t2 t3 = Except.error e →
      (∃ e1, t1 = Except.error e1) ∧ (∃ e2, t2 = Except.error e2) ∧
        t3 = Except.error e) := by
  refine ⟨?_, ?_, ?_, ?_⟩ <;> cases t1 <;> cases t2 <;> simp [fallbackChain]

/-- Witness for C1 at concrete tiers: both failing tiers 1 and 2 hand
control to tier 3, whose value or error is returned unchanged. -/
theorem C1_fallback_chain_witness :
    fallbackChain (Except.error 0) (Except.error 1) (Except.ok 2) = Except.ok 2 ∧
    fallbackChain (Except.error 0) (Except.error 1) (Except.error 3 : Except ℕ ℕ) =
      Except.error 3 := by
  constructor
  · exact (C1_fallback_chain (Except.error 0) (Except.error 1)
      (Except.ok 2)).2.2.1 0 1 rfl rfl
  · exact (C1_fallback_chain (Except.error 0) (Except.error 1)
      (Except.error 3)).2.2.1 0 1 rfl rfl

/-- C2: the tier-3 minimal paginator text_to_pdf_bytes never raises (it
is a total function of its input) and returns a byte stream of positive
length for every input text, covering in particular the empty string,
whitespace-only strings, strings longer than 100000 characters and
strings without newlines. -/
theorem C2_text_to_pdf_bytes_total (text : String) :
    0 < (text_to_pdf_bytes text).length := by
  simp [text_to_pdf_bytes, pdfSerialize]

/-- C6: Scenario A; mapping the five-line input over a template with
sections Header, Experience and Skills yields Body, Experience and
Skills in that order with exactly the expected line lists. -/
theorem C6_scenario_A :
    map_text_to_template "John Doe\nExperience\n- Built X\nSkills\nPython, SQL"
      ⟨"sample", [⟨"Header"⟩, ⟨"Experience"⟩, ⟨"Skills"⟩]⟩ =
    ⟨"sample",
      [("Body", ["John Doe"]), ("Experience", ["- Built X"]),
        ("Skills", ["Python, SQL"])]⟩ := by
  decide

/-- C7: map_text_to_template never raises (it is total) and, for a
template with an empty section list, returns exactly one section named
Body holding every non-empty stripped input line in order. -/
theorem C7_map_empty_template (text : String) (tmpl : Template)
    (h : tmpl.sections = []) :
    map_text_to_template text tmpl =
      ⟨tmpl.template_name,
        [("Body", ((splitlines text).map pyStrip).filter (fun l => l ≠ ""))]⟩ := by
  obtain ⟨name, secs⟩ := tmpl
  simp only at h
  subst h
  simp only [map_text_to_template]
  rw [mapStep_fold_empty]
  simp

/-- Witness for C7 at a concrete text and an empty template. -/
theorem C7_map_empty_template_witness :
    map_text_to_template " a \n\nb" ⟨"t", []⟩ = ⟨"t", [("Body", ["a", "b"])]⟩ := by
  rw [C7_map_empty_template " a \n\nb" ⟨"t", []⟩ rfl]
  decide

/-- C10: a matching line whose stripped text equals an existing section
key resets that section's line list to the empty list in place (all
previously accumulated lines are dropped, other sections untouched);
end to end, a heading occurring twice retains only the lines after its
last occurrence. -/
theorem C10_heading_reinit :
    (∀ (tmpl : Template) (cur : String) (pre post : Sections)
        (v : List String) (line : String),
      pyStrip line ≠ "" →
      matchesTemplate (pyStrip line) tmpl = true →
      (∀ p ∈ pre, p.1 ≠ pyStrip line) →
      (∀ p ∈ post, p.1 ≠ pyStrip line) →
      mapStep tmpl (cur, pre ++ (pyStrip line, v) :: post) line =
        (pyStrip line, pre ++ (pyStrip line, []) :: post)) ∧
    map_text_to_template "Skills\nPython\nSkills\nSQL" ⟨"sample", [⟨"Skills"⟩]⟩ =
      ⟨"sample", [("Body", []), ("Skills", ["SQL"])]⟩ := by
  constructor
  · intro tmpl cur pre post v line h1 h2 hpre hpost
    have e : mapStep tmpl (cur, pre ++ (pyStrip line, v) :: post) line =
        (pyStrip line, setKey (pre ++ (pyStrip line, v) :: post) (pyStrip line) []) := by
      simp [mapStep, h1, h2]
    rw [e, setKey_middle pre post (pyStrip line) v [] hpre hpost]
  · decide

/-- Witness for C10: the second Skills heading wipes the lines the
first one had accumulated. -/
theorem C10_heading_reinit_witness :
    mapStep ⟨"t", [⟨"Skills"⟩]⟩ ("Skills", [("Body", ["x"]), ("Skills", ["Python"])])
        "Skills" =
      ("Skills", [("Body", ["x"]), ("Skills", [])]) := by
  have h := C10_heading_reinit.1 ⟨"t", [⟨"Skills"⟩]⟩ "Skills" [("Body", ["x"])] []
    ["Python"] "Skills" (by decide) (by decide) (by decide) (by decide)
  simp only [show pyStrip "Skills" = "Skills" from by decide] at h
  simpa using h

mutual

/-- A json round-trip reconstructs a Python value up to replacing every
tuple by the corresponding list. -/
theorem load_dump_eq_detuple (v : PyVal) : pyLoad (pyDump v) = detuple v := by
  cases v with
  | str s => rfl
  | int n => rfl
  | float q => rfl
  | bool b => rfl
  | none => rfl
  | list xs => simp [pyDump, pyLoad, detuple, load_dump_list xs]
  | tuple xs => simp [pyDump, pyLoad, detuple, load_dump_list xs]
  | dict kvs => simp [pyDump, pyLoad, detuple, load_dump_kvs kvs]

/-- Round-trip over the elements of a list or tuple. -/
theorem load_dump_list (xs : List PyVal) :
    pyLoadList (pyDumpList xs) = detupleList xs := by
  cases xs with
  | nil => rfl
  | cons x xs =>
    simp [pyDumpList, pyLoadList, detupleList, load_dump_eq_detuple x, load_dump_list xs]

/-- Round-trip over the entries of a dict. -/
theorem load_dump_kvs (kvs : List (String × PyVal)) :
    pyLoadKVs (pyDumpKVs kvs) = detupleKVs kvs := by
  cases kvs with
  | nil => rfl
  | cons kv kvs =>
    simp [pyDumpKVs, pyLoadKVs, detupleKVs, load_dump_eq_detuple kv.2, load_dump_kvs kvs]

end

mutual

/-- Tuple-free Python values are fixed points of detuple. -/
theorem detuple_eq_self (v : PyVal) (h : hasTuple v = false) : detuple v = v := by
  cases v with
  | str s => rfl
  | int n => rfl
  | float q => rfl
  | bool b => rfl
  | none => rfl
  | list xs =>
    simp only [detuple, PyVal.list.injEq]
    exact detupleList_eq_self xs (by simpa [hasTuple] using h)
  | tuple xs => exact absurd h (by simp [hasTuple])
  | dict kvs =>
    simp only [detuple, PyVal.dict.injEq]
    exact detupleKVs_eq_self kvs (by simpa [hasTuple] using h)

/-- Tuple-free elements are fixed by detupleList. -/
theorem detupleList_eq_self (xs : List PyVal) (h : hasTupleList xs = false) :
    detupleList xs = xs := by
  cases xs with
  | nil => rfl
  | cons x xs =>
    simp only [hasTupleList, Bool.or_eq_false_iff] at h
    simp [detupleList, detuple_eq_self x h.1, detupleList_eq_self xs h.2]

/-- Tuple-free entries are fixed by detupleKVs. -/
theorem detupleKVs_eq_self (kvs : List (String × PyVal)) (h : hasTupleKVs kvs = false) :
    detupleKVs kvs = kvs := by
  cases kvs with
  | nil => rfl
  | cons kv kvs =>
    cases kv with
    | mk k v =>
      simp only [hasTupleKVs, Bool.or_eq_false_iff] at h
      simp [detupleKVs, detuple_eq_self v h.1, detupleKVs_eq_self kvs h.2]

end

/-- Counterexample to C3: a template value holding a bbox tuple (as every
template produced by parse_template does, via round_bbox) does not come
back equal to itself: json turns the tuple into a list, and in Python a
list never equals a tuple, so field-for-field equality fails regardless
of any float tolerance. -/
theorem C3_roundtrip_counterexample :
    load_template (save_template (PyVal.dict
      [("page_width", PyVal.float 612),
       ("bbox", PyVal.tuple
         [PyVal.float 10, PyVal.float 20, PyVal.float 30, PyVal.float 40])])) ≠
    PyVal.dict
      [("page_width", PyVal.float 612),
       ("bbox", PyVal.tuple
         [PyVal.float 10, PyVal.float 20, PyVal.float 30, PyVal.float 40])] := by
  show pyLoad (pyDump _) ≠ _
  rw [load_dump_eq_detuple]
  simp [detuple, detupleKVs, detupleList]

/-- C3 amended: loading a previously saved template reconstructs the
template with every tuple replaced by the corresponding list (all other
fields, floats included, are reconstructed exactly); in particular a
template containing no tuple round-trips to a field-for-field equal
value. -/
theorem C3_roundtrip_amended (T : PyVal) :
    load_template (save_template T) = detuple T ∧
    (hasTuple T = false → load_template (save_template T) = T) := by
  have h : load_template (save_template T) = detuple T := load_dump_eq_detuple T
  exact ⟨h, fun ht => by rw [h, detuple_eq_self T ht]⟩

/-- Witness for C3 amended at a concrete tuple-free template value. -/
theorem C3_roundtrip_amended_witness :
    load_template (save_template (PyVal.dict
      [("template_name", PyVal.str "t"),
       ("zones", PyVal.list [PyVal.float 1, PyVal.int 2])])) =
    PyVal.dict
      [("template_name", PyVal.str "t"),
       ("zones", PyVal.list [PyVal.float 1, PyVal.int 2])] :=
  (C3_roundtrip_amended _).2 (by simp [hasTuple, hasTupleKVs, hasTupleList])

/-- Counterexample to C8: at text length 150, average glyph width 1,
content width 100 and leading 10, the code returns 1.5 lines worth of
height (15) while the claimed ceil formula gives 2 lines (20): the code
takes max(1, L / charsPerLine), not its ceiling. -/
theorem C8_estimate_height_counterexample :
    estimate_text_height 150 1 100 10 ≠ spec_estimate_text_height 150 1 100 10 := by
  have h1 : estimate_text_height 150 1 100 10 = 15 := by
    simp only [estimate_text_height]
    rw [show ((150 : ℕ) : ℚ) / ((100 : ℚ) / 1) = 3 / 2 by norm_num]
    rw [show max (1 : ℚ) (3 / 2) = 3 / 2 from max_eq_right (by norm_num)]
    norm_num
  have h2 : spec_estimate_text_height 150 1 100 10 = 20 := by
    simp only [spec_estimate_text_height]
    rw [show ((150 : ℕ) : ℚ) / ((100 : ℚ) / 1) = 3 / 2 by norm_num]
    rw [show ⌈(3 / 2 : ℚ)⌉ = 2 from by rw [Int.ceil_eq_iff]; norm_num]
    norm_num
  rw [h1, h2]
  norm_num

/-- C8 amended: the estimated height is max(1, L / charsPerLine) * leading
(a fractional line count floored below at one line), which for non-empty
text is a lower bound of the claimed ceil formula and within one leading
of it: code estimate ≤ ceil estimate < code estimate + leading. -/
theorem C8_estimate_height_amended (L : ℕ) (avgW width leading : ℚ)
    (havg : 0 < avgW) (hw : 0 < width) (hl : 0 < leading) (hL : 1 ≤ L) :
    estimate_text_height L avgW width leading ≤
        spec_estimate_text_height L avgW width leading ∧
    spec_estimate_text_height L avgW width leading <
        estimate_text_height L avgW width leading + leading := by
  simp only [estimate_text_height, spec_estimate_text_height]
  set x := (L : ℚ) / (width / avgW) with hx
  have hcpl : 0 < width / avgW := div_pos hw havg
  have hL1 : (1 : ℚ) ≤ (L : ℚ) := by exact_mod_cast hL
  have hxpos : 0 < x := div_pos (lt_of_lt_of_le one_pos hL1) hcpl
  have hceil1 : (1 : ℤ) ≤ ⌈x⌉ := Int.ceil_pos.mpr hxpos
  have hle : max 1 x ≤ (⌈x⌉ : ℚ) := by
    apply max_le
    · exact_mod_cast hceil1
    · exact Int.le_ceil x
  have hlt : (⌈x⌉ : ℚ) < max 1 x + 1 :=
    lt_of_lt_of_le (Int.ceil_lt_add_one x) (by gcongr; exact le_max_right 1 x)
  constructor
  · exact mul_le_mul_of_nonneg_right hle (le_of_lt hl)
  · calc (⌈x⌉ : ℚ) * leading < (max 1 x + 1) * leading :=
        mul_lt_mul_of_pos_right hlt hl
      _ = max 1 x * leading + leading := by ring

/-- Witness for C8 amended at concrete inputs. -/
theorem C8_estimate_height_amended_witness :
    estimate_text_height 150 1 100 10 ≤ spec_estimate_text_height 150 1 100 10 ∧
    spec_estimate_text_height 150 1 100 10 <
      estimate_text_height 150 1 100 10 + 10 :=
  C8_estimate_height_amended 150 1 100 10 (by norm_num) (by norm_num)
    (by norm_num) (by norm_num)

/-- Counterexample to C9: with base size 11, a Normal style of leading 15,
available height 100 and estimated total 200, the code produces font
size 8 with leading 11 (applied font + 3), while proportional scaling of
the leading (the claimed rule) would give 15 * 0.5 * 1.1 = 8.25 ≠ 11. -/
theorem C9_adaptive_fit_counterexample :
    apply_adaptive_fit [⟨11, 15⟩] 11 100 200 = [⟨8, 11⟩] ∧
    spec_scaled_leading 15 (100 / 200) ≠ 11 := by
  constructor
  · simp only [apply_adaptive_fit]
    rw [if_pos (by norm_num)]
    simp only [List.map_cons, List.map_nil]
    rw [show max (8 : ℚ) (11 * (100 / 200) * (11 / 10)) = 8 from
      max_eq_left (by norm_num)]
    norm_num
  · simp only [spec_scaled_leading]
    norm_num

/-- C9 amended: whenever the estimated total exceeds the available
height, every style receives font size max(8, base * scale * 1.1) — so
the applied size never drops below the floor of 8 — and leading equal to
that font size plus 3 (an affine rule, not proportional scaling); when
the estimated total is exactly twice the available height the pre-clamp
factor on the base size is 0.5 * 1.1 = 0.55. -/
theorem C9_adaptive_fit_amended (styles : List RStyle)
    (base avgW maxw leadN maxh : ℚ) (text : String)
    (hover : maxh < total_est_height text avgW maxw leadN) :
    (∀ s ∈ apply_adaptive_fit styles base maxh (total_est_height text avgW maxw leadN),
      s.fontSize =
        max 8 (base * (maxh / total_est_height text avgW maxw leadN) * (11 / 10)) ∧
      s.leading = s.fontSize + 3 ∧ 8 ≤ s.fontSize) ∧
    (total_est_height text avgW maxw leadN = 2 * maxh →
      maxh / total_est_height text avgW maxw leadN * (11 / 10) = 11 / 20) := by
  constructor
  · intro s hs
    simp only [apply_adaptive_fit, if_pos hover, List.mem_map] at hs
    obtain ⟨s0, _, rfl⟩ := hs
    exact ⟨rfl, rfl, le_max_left _ _⟩
  · intro h2
    have hmaxh : maxh ≠ 0 := by
      intro h0
      rw [h0] at h2
      rw [h2] at hover
      rw [h0] at hover
      simp at hover
    rw [h2]
    field_simp
    ring

/-- Witness for C9 amended: the Scenario C factor at a concrete text
whose estimated total height is exactly twice the available height. -/
theorem C9_adaptive_fit_amended_witness :
    (10 : ℚ) / total_est_height "ab" 1 1 10 * (11 / 10) = 11 / 20 := by
  have hT : total_est_height "ab" 1 1 10 = 20 := by
    simp only [total_est_height, show splitlines "ab" = ["ab"] from by decide,
      List.map_cons, List.map_nil, List.sum_cons, List.sum_nil,
      show ("ab" : String).length = 2 from by decide, estimate_text_height]
    rw [show ((2 : ℕ) : ℚ) / ((1 : ℚ) / 1) = 2 by norm_num]
    rw [show max (1 : ℚ) 2 = 2 from max_eq_right (by norm_num)]
    ring
  exact (C9_adaptive_fit_amended [⟨11, 15⟩] 11 1 1 10 10 "ab"
    (by rw [hT]; norm_num)).2 (by rw [hT]; norm_num)

/-- modifyAt preserves length. -/
theorem modifyAt_length (l : List α) (n : ℕ) (f : α → α) :
    (modifyAt l n f).length = l.length := by
  induction l generalizing n with
  | nil => rfl
  | cons x xs ih =>
    cases n with
    | zero => rfl
    | succ n => simp [modifyAt, ih]

/-- init_zones builds one accumulator per band. -/
theorem init_zones_length (band : ℚ) (n : ℕ) :
    (init_zones band n).length = n := by
  simp [init_zones]

/-- The initial accumulators hold no spans. -/
theorem accCount_init (band : ℚ) (n : ℕ) (b : Blk) :
    accCount (init_zones band n) b = 0 := by
  induction n with
  | zero => rfl
  | succ n ih =>
    simp only [init_zones, List.range_succ, List.map_append, List.map_map]
    simp only [init_zones, List.map_map] at ih
    simp [accCount, List.map_append] at ih ⊢
    exact ih

/-- A successfully normalised Python index is in range. -/
theorem pyNormIdx_lt (len : ℕ) (i : ℤ) (j : ℕ) (h : pyNormIdx len i = some j) :
    j < len := by
  unfold pyNormIdx at h
  split at h
  · next h1 =>
    injection h with h'
    omega
  · split at h
    · next h2 =>
      injection h with h'
      omega
    · exact absurd h (by simp)

/-- A Python index between -len and len-1 normalises successfully. -/
theorem pyNormIdx_isSome (len : ℕ) (i : ℤ) (h1 : -(len : ℤ) ≤ i) (h2 : i < len) :
    ∃ j, pyNormIdx len i = some j ∧ j < len := by
  unfold pyNormIdx
  by_cases h : 0 ≤ i ∧ i < (len : ℤ)
  · exact ⟨i.toNat, by rw [if_pos h], by omega⟩
  · have hneg : -(len : ℤ) ≤ i ∧ i < 0 := by omega
    exact ⟨((len : ℤ) + i).toNat, by rw [if_neg h, if_pos hneg], by omega⟩

/-- accCount over a cons. -/
theorem accCount_cons (z : ZoneAcc) (zs : List ZoneAcc) (b : Blk) :
    accCount (z :: zs) b = z.items.count b + accCount zs b := by
  simp [accCount]

/-- Occurrence count over a cons, with a propositional condition. -/
theorem count_cons_eq (x b : Blk) (xs : List Blk) :
    (x :: xs).count b = xs.count b + (if x = b then 1 else 0) := by
  rw [List.count_cons]
  congr 1
  simp [beq_iff_eq]

/-- Appending one span at a valid position adds exactly one occurrence of
that span to the accumulator counts. -/
theorem accCount_modifyAt (zs : List ZoneAcc) (j : ℕ) (hj : j < zs.length)
    (b b' : Blk) :
    accCount (modifyAt zs j (fun z => { z with items := z.items ++ [b'] })) b =
      accCount zs b + (if b' = b then 1 else 0) := by
  induction zs generalizing j with
  | nil => simp at hj
  | cons z zs ih =>
    cases j with
    | zero =>
      simp only [modifyAt, accCount_cons]
      rw [List.count_append]
      have h1 : List.count b ([b'] : List Blk) = if b' = b then 1 else 0 := by
        have := count_cons_eq b' b []
        simpa using this
      rw [h1]
      omega
    | succ j =>
      simp only [modifyAt, accCount_cons]
      rw [ih j (by simpa using hj)]
      omega

/-- Unfolds one successful assignment step of group_blocks_into_zones. -/
theorem assign_block_some (band : ℚ) (n : ℕ) (zones : List ZoneAcc) (b : Blk)
    (j : ℕ) (hband : band ≠ 0)
    (hj : pyNormIdx zones.length (zone_idx (y_center b.bbox) band n) = some j) :
    assign_block band n zones b =
      some (modifyAt zones j (fun z => { z with items := z.items ++ [b] })) := by
  unfold assign_block
  rw [if_neg hband, hj]

/-- A successful assignment loop adds every processed block to exactly
one accumulator and preserves the number of accumulators. -/
theorem foldl_assign_count (band : ℚ) (n : ℕ) (blocks : List Blk)
    (zs zs' : List ZoneAcc)
    (h : List.foldlM (assign_block band n) zs blocks = some zs') (b : Blk) :
    accCount zs' b = accCount zs b + blocks.count b ∧ zs'.length = zs.length := by
  induction blocks generalizing zs with
  | nil =>
    simp only [List.foldlM_nil, pure, Option.some.injEq] at h
    subst h
    simp
  | cons x xs ih =>
    rw [List.foldlM_cons] at h
    cases hx : assign_block band n zs x with
    | none => rw [hx] at h; simp at h
    | some zs1 =>
      rw [hx] at h
      replace h : List.foldlM (assign_block band n) zs1 xs = some zs' := h
      obtain ⟨j, hj, hjlt, hzs1⟩ :
          ∃ j, pyNormIdx zs.length (zone_idx (y_center x.bbox) band n) = some j ∧
            j < zs.length ∧
            zs1 = modifyAt zs j (fun z => { z with items := z.items ++ [x] }) := by
        unfold assign_block at hx
        split at hx
        · exact absurd hx (by simp)
        · cases hpy : pyNormIdx zs.length (zone_idx (y_center x.bbox) band n) with
          | none => rw [hpy] at hx; exact absurd hx (by simp)
          | some j =>
            rw [hpy] at hx
            injection hx with hx'
            exact ⟨j, rfl, pyNormIdx_lt _ _ _ hpy, hx'.symm⟩
      subst hzs1
      obtain ⟨h1, h2⟩ := ih _ h
      constructor
      · rw [h1, accCount_modifyAt zs j hjlt b x, count_cons_eq]
        omega
      · rw [h2, modifyAt_length]

/-- When every block's vertical center is at least -(band * n), the
assignment loop never raises. -/
theorem foldl_assign_success (band : ℚ) (n : ℕ) (blocks : List Blk)
    (zs : List ZoneAcc) (hband : 0 < band) (hn : 1 ≤ n) (hlen : zs.length = n)
    (hcy : ∀ b ∈ blocks, -(band * (n : ℚ)) ≤ y_center b.bbox) :
    ∃ zs', List.foldlM (assign_block band n) zs blocks = some zs' := by
  induction blocks generalizing zs with
  | nil => exact ⟨zs, rfl⟩
  | cons x xs ih =>
    have hcyx := hcy x (List.mem_cons_self x xs)
    have hfloor : -(n : ℤ) ≤ ⌊y_center x.bbox / band⌋ := by
      rw [Int.le_floor]
      push_cast
      rw [le_div_iff₀ hband]
      calc (-(n : ℚ)) * band = -(band * (n : ℚ)) := by ring
        _ ≤ y_center x.bbox := hcyx
    have hidx1 : -(n : ℤ) ≤ zone_idx (y_center x.bbox) band n := by
      unfold zone_idx
      omega
    have hidx2 : zone_idx (y_center x.bbox) band n < (n : ℤ) := by
      unfold zone_idx
      omega
    obtain ⟨j, hj, hjlt⟩ :=
      pyNormIdx_isSome n (zone_idx (y_center x.bbox) band n) hidx1 hidx2
    rw [List.foldlM_cons,
      assign_block_some band n zs x j (ne_of_gt hband) (by rw [hlen]; exact hj)]
    exact ih _ (by rw [modifyAt_length, hlen])
      (fun b hb => hcy b (List.mem_cons_of_mem _ hb))

/-- Dropping empty accumulators does not change span counts. -/
theorem zonesCount_summarize (zs : List ZoneAcc) (b : Blk) :
    zonesCount (summarize_zones zs) b = accCount zs b := by
  induction zs with
  | nil => rfl
  | cons z zs ih =>
    by_cases h : z.items.isEmpty
    · have hz : z.items = [] := by simpa [List.isEmpty_iff] using h
      simp [summarize_zones, h, ih, accCount_cons, hz]
    · simp [summarize_zones, h, zonesCount, accCount_cons]
      simpa [zonesCount] using ih

/-- Counterexample to C4: a span whose vertical center (-650) lies below
-pageHeight makes the assignment index -7 on a 6-zone page, and Python
list indexing raises IndexError (modelled Option.none): the span is
assigned to no zone at all, so the partition property fails for this
span list. -/
theorem C4_zone_partition_counterexample :
    group_blocks_into_zones
      [⟨"x", Option.none, Option.none, (0, -660, 100, -640)⟩] 600 6 =
      Option.none := by
  have hband : (600 : ℚ) / ((6 : ℕ) : ℚ) = 100 := by norm_num
  have hcy : y_center ((0 : ℚ), (-660 : ℚ), (100 : ℚ), (-640 : ℚ)) = -650 := by
    norm_num [y_center]
  have hfl : ⌊(-650 : ℚ) / 100⌋ = -7 := by
    rw [Int.floor_eq_iff]
    norm_num
  have hzi : zone_idx (-650 : ℚ) 100 6 = -7 := by
    unfold zone_idx
    rw [hfl]
    omega
  have hpy : pyNormIdx 6 (-7) = Option.none := by decide
  have hassign : assign_block 100 6 (init_zones 100 6)
      ⟨"x", Option.none, Option.none, (0, -660, 100, -640)⟩ = Option.none := by
    unfold assign_block
    rw [if_neg (by norm_num : ¬ (100 : ℚ) = 0)]
    rw [init_zones_length]
    have hproj : (⟨"x", Option.none, Option.none, ((0:ℚ), -660, 100, -640)⟩ : Blk).bbox =
        ((0:ℚ), -660, 100, -640) := rfl
    rw [hproj, hcy, hzi, hpy]
  simp only [group_blocks_into_zones, hband]
  rw [List.foldlM_cons, hassign]
  rfl

/-- C4 amended: for every span list whose vertical centers are at least
-pageHeight (in particular all spans extracted from the page), every
number of zones N ≥ 1 and positive page height, group_blocks_into_zones
succeeds, assigns each span to exactly one zone, and the member lists of
the returned zones together hold exactly the input spans, none lost and
none duplicated (occurrence counts agree for every span). -/
theorem C4_zone_partition_amended (blocks : List Blk) (page_height : ℚ) (N : ℕ)
    (hN : 1 ≤ N) (hH : 0 < page_height)
    (hcy : ∀ b ∈ blocks, -page_height ≤ y_center b.bbox) :
    ∃ out, group_blocks_into_zones blocks page_height N = some out ∧
      ∀ b : Blk, zonesCount out b = blocks.count b := by
  have hNq : (0 : ℚ) < (N : ℚ) := by
    exact_mod_cast (by omega : 0 < N)
  have hband : 0 < page_height / (N : ℚ) := div_pos hH hNq
  have hbn : page_height / (N : ℚ) * (N : ℚ) = page_height :=
    div_mul_cancel₀ page_height (ne_of_gt hNq)
  obtain ⟨zs', hfold⟩ := foldl_assign_success (page_height / (N : ℚ)) N blocks
    (init_zones (page_height / (N : ℚ)) N) hband hN (init_zones_length _ _)
    (fun b hb => by rw [hbn]; exact hcy b hb)
  refine ⟨summarize_zones zs', ?_, ?_⟩
  · simp only [group_blocks_into_zones]
    rw [hfold]
  · intro b
    obtain ⟨h1, _⟩ := foldl_assign_count _ _ blocks _ _ hfold b
    rw [zonesCount_summarize, h1, accCount_init]
    omega

/-- Witness for C4 amended at a concrete one-span list. -/
theorem C4_zone_partition_amended_witness :
    ∃ out, group_blocks_into_zones
        [⟨"a", Option.none, Option.none, (0, 40, 100, 60)⟩] 600 6 = some out ∧
      ∀ b : Blk, zonesCount out b =
        ([⟨"a", Option.none, Option.none, (0, 40, 100, 60)⟩] : List Blk).count b :=
  C4_zone_partition_amended _ 600 6 (by norm_num) (by norm_num)
    (fun b hb => by
      simp only [List.mem_singleton] at hb
      subst hb
      norm_num [y_center])

/-- Counterexample to C5: a span with vertical center -50 on a 600-unit
page with 6 zones is assigned by the code to zone index 5 (the index
min(floor(-50/100), 5) = -1 wraps around under Python indexing), while
the claimed clamp-to-[0,N-1] formula yields zone index 0. -/
theorem C5_zone_index_counterexample :
    (group_blocks_into_zones
        [⟨"s", Option.none, Option.none, (0, -60, 100, -40)⟩] 600 6).map
      (fun zs => zs.map (fun z => (z.zone_index, z.items))) =
      some [(5, [⟨"s", Option.none, Option.none, (0, -60, 100, -40)⟩])] ∧
    spec_zone_index (y_center ((0 : ℚ), -60, 100, -40)) 100 6 = 0 := by
  constructor
  · have hband : (600 : ℚ) / ((6 : ℕ) : ℚ) = 100 := by norm_num
    have hzi : zone_idx (y_center ((0:ℚ), -60, 100, -40)) 100 6 = -1 := by
      unfold zone_idx
      rw [show y_center ((0:ℚ), -60, 100, -40) / 100 = -1/2 by norm_num [y_center]]
      rw [show ⌊(-1/2 : ℚ)⌋ = -1 from by rw [Int.floor_eq_iff]; norm_num]
      omega
    simp only [group_blocks_into_zones, hband]
    rw [List.foldlM_cons,
      assign_block_some 100 6 _ _ 5 (by norm_num)
        (by rw [init_zones_length, hzi]; decide)]
    simp only [Option.bind_eq_bind, Option.some_bind, List.foldlM_nil]
    simp only [init_zones, show List.range 6 = [0, 1, 2, 3, 4, 5] from by decide,
      List.map_cons, List.map_nil, modifyAt]
    simp [summarize_zones]
  · unfold spec_zone_index
    rw [show y_center ((0:ℚ), -60, 100, -40) / 100 = -1/2 by norm_num [y_center]]
    rw [show ⌊(-1/2 : ℚ)⌋ = -1 from by rw [Int.floor_eq_iff]; norm_num]
    omega

/-- C5 amended: the position a span is written to is
min(floor(center/bandHeight), N-1) interpreted with Python list
indexing; for spans with nonnegative vertical centers this coincides
with the claimed clamp formula floor(center/bandHeight) bounded into
[0, N-1] (spans with negative centers instead wrap around to
high-index zones). Scenario B holds as claimed: on a 600-unit page with
N = 6 and spans centered at 50, 300 and 550, exactly the three zones
0, 3 and 5 are produced, each holding exactly its one span. -/
theorem C5_zone_index_amended :
    (∀ (cy band : ℚ) (n : ℕ), 0 < band → 1 ≤ n → 0 ≤ cy →
      assigned_zone_pos cy band n = some (spec_zone_index cy band n).toNat) ∧
    (group_blocks_into_zones
        [⟨"s1", Option.none, Option.none, (0, 40, 100, 60)⟩,
         ⟨"s2", Option.none, Option.none, (0, 290, 100, 310)⟩,
         ⟨"s3", Option.none, Option.none, (0, 540, 100, 560)⟩] 600 6).map
      (fun zs => zs.map (fun z => (z.zone_index, z.items))) =
    some [(0, [⟨"s1", Option.none, Option.none, (0, 40, 100, 60)⟩]),
          (3, [⟨"s2", Option.none, Option.none, (0, 290, 100, 310)⟩]),
          (5, [⟨"s3", Option.none, Option.none, (0, 540, 100, 560)⟩])] := by
  constructor
  · intro cy band n hband hn hcy
    have hf : 0 ≤ ⌊cy / band⌋ := Int.floor_nonneg.mpr (div_nonneg hcy hband.le)
    have hn' : (1 : ℤ) ≤ (n : ℤ) := by exact_mod_cast hn
    unfold assigned_zone_pos pyNormIdx zone_idx spec_zone_index
    rw [if_pos (show 0 ≤ min ⌊cy / band⌋ ((n:ℤ) - 1) ∧
        min ⌊cy / band⌋ ((n:ℤ) - 1) < ((n:ℕ):ℤ) from by omega)]
    congr 1
    omega
  · have hband : (600 : ℚ) / ((6 : ℕ) : ℚ) = 100 := by norm_num
    have hzi1 : zone_idx (y_center ((0:ℚ), 40, 100, 60)) 100 6 = 0 := by
      unfold zone_idx
      rw [show y_center ((0:ℚ), 40, 100, 60) / 100 = 1/2 by norm_num [y_center]]
      rw [show ⌊(1/2 : ℚ)⌋ = 0 from by rw [Int.floor_eq_iff]; norm_num]
      omega
    have hzi2 : zone_idx (y_center ((0:ℚ), 290, 100, 310)) 100 6 = 3 := by
      unfold zone_idx
      rw [show y_center ((0:ℚ), 290, 100, 310) / 100 = 3 by norm_num [y_center]]
      rw [show ⌊(3 : ℚ)⌋ = 3 from by rw [Int.floor_eq_iff]; norm_num]
      omega
    have hzi3 : zone_idx (y_center ((0:ℚ), 540, 100, 560)) 100 6 = 5 := by
      unfold zone_idx
      rw [show y_center ((0:ℚ), 540, 100, 560) / 100 = 11/2 by norm_num [y_center]]
      rw [show ⌊(11/2 : ℚ)⌋ = 5 from by rw [Int.floor_eq_iff]; norm_num]
      omega
    simp only [group_blocks_into_zones, hband]
    rw [List.foldlM_cons,
      assign_block_some 100 6 _ _ 0 (by norm_num)
        (by rw [init_zones_length, hzi1]; decide)]
    simp only [Option.bind_eq_bind, Option.some_bind]
    rw [List.foldlM_cons,
      assign_block_some 100 6 _ _ 3 (by norm_num)
        (by rw [modifyAt_length, init_zones_length, hzi2]; decide)]
    simp only [Option.bind_eq_bind, Option.some_bind]
    rw [List.foldlM_cons,
      assign_block_some 100 6 _ _ 5 (by norm_num)
        (by rw [modifyAt_length, modifyAt_length, init_zones_length, hzi3]; decide)]
    simp only [Option.bind_eq_bind, Option.some_bind, List.foldlM_nil]
    simp only [init_zones, show List.range 6 = [0, 1, 2, 3, 4, 5] from by decide,
      List.map_cons, List.map_nil, modifyAt]
    simp [summarize_zones]

/-- Witness for C5 amended at a concrete nonnegative center. -/
theorem C5_zone_index_amended_witness :
    assigned_zone_pos 50 100 6 = some (spec_zone_index 50 100 6).toNat :=
  C5_zone_index_amended.1 50 100 6 (by norm_num) (by norm_num) (by norm_num)
